import Mathlib

/-!
Shallow embedding of the gt-scheduler crawler-v2 finals parser
(`src/Parse.py`, `src/Revise.py`).

The Python code works over pandas DataFrames and Python regexes; the
embedding models cells as `Option String` (`none` = NaN), DataFrame blocks
as lists of cell pairs, and each regex as an explicit character-list
scanner with the same backtracking behaviour as the CPython `re` engine on
these concrete patterns (where the pattern structure makes the scan
deterministic, the scanner is written directly in that deterministic
form; the relevant arguments are noted inline).

A behavioural point of the source, checked against the CPython version the
crawler runs on (3.11) and modelled faithfully here: the `date` and `time`
regex-substitution callbacks in `Parser.parseBlock` return `None`, which
`re.sub` treats as an empty replacement string — every match is removed
from the text, the callback runs once per match, and no exception is
raised.  Calling a regex on a NaN (float) cell still raises `TypeError`,
and building version 2's `Time` string from a failed `split_schedule`
(`None.lower()`) raises `AttributeError`; Python exceptions are modelled
with `Except PyErr`.
-/

/-- Error classes raised by the modelled Python code. -/
inductive PyErr where
  | typeError
  | attributeError
  | lookupError
  | indexError
  | keyError
  | valueError
deriving DecidableEq, Repr

deriving instance DecidableEq for Except

/-- Characters matched by `\w` in the Python regexes (inputs are ASCII). -/
def isWordCh (c : Char) : Bool := c.isAlpha || c.isDigit || c == '_'

/-- Characters matched by `\s`. -/
def isSpaceCh (c : Char) : Bool :=
  c == ' ' || c == '\t' || c == '\n' || c == '\r' || c == '\x0b' || c == '\x0c'

/-- Numeric value of a decimal digit character. -/
def digitVal (c : Char) : Nat := c.toNat - '0'.toNat

/-- Bool test `lo ≤ c ≤ hi` on character codes. -/
def chBetween (lo hi c : Char) : Bool :=
  Nat.ble lo.toNat c.toNat && Nat.ble c.toNat hi.toNat

/-- Nat from a list of digit characters, most significant first. -/
def digitsToNat (cs : List Char) : Nat := cs.foldl (fun n c => n * 10 + digitVal c) 0

/-- Python `str.lower()` on ASCII text: character-wise lowering.  (Defined on
the character list so that it reduces inside the kernel; `String.toLower`
is implemented by well-founded recursion and does not.) -/
def pyLower (s : String) : String := (s.data.map Char.toLower).asString

/-- Python `str.strip()`: remove leading and trailing whitespace. -/
def pyStrip (s : String) : String :=
  ((s.data.dropWhile isSpaceCh).reverse.dropWhile isSpaceCh).reverse.asString

/-- `str.replace` for a single-character needle and replacement. -/
def chReplace (old new : Char) (s : String) : String :=
  (s.data.map (fun c => if c == old then new else c)).asString

/-- Python `str.split(sep)` for a non-empty separator: fuelled leftmost
non-overlapping scan keeping empty pieces. -/
def pySplitOnAux (sep : List Char) : Nat → List Char → List Char → List (List Char)
  | 0, acc, cs => [acc.reverse ++ cs]
  | fuel + 1, acc, cs =>
    if sep.isPrefixOf cs then acc.reverse :: pySplitOnAux sep fuel [] (cs.drop sep.length)
    else
      match cs with
      | [] => [acc.reverse]
      | c :: rest => pySplitOnAux sep fuel (c :: acc) rest

/-- String wrapper for `pySplitOnAux`. -/
def pySplitOn (sep s : String) : List String :=
  (pySplitOnAux sep.data (s.data.length + 1) [] s.data).map List.asString

/-- Python `str.split()` with no argument: split on whitespace runs,
dropping empty pieces. -/
def pyWordsAux : Nat → List Char → List (List Char)
  | 0, _ => []
  | fuel + 1, cs =>
    let (w, rest) := (cs.dropWhile isSpaceCh).span (fun c => !isSpaceCh c)
    if w.isEmpty then [] else w :: pyWordsAux fuel rest

/-- String wrapper for `pyWordsAux`. -/
def pysplitWs (s : String) : List String :=
  (pyWordsAux s.data.length s.data).map List.asString

/-- One capture of `(\d{1,2}):(\d{2}) (a|p)m` from `Parser.convertTimeGroup`. -/
structure TimeTok where
  hour : List Char
  minute : List Char
  ampm : Char
deriving DecidableEq, Repr

/-- Match `(\d{1,2}):(\d{2}) (a|p)m` at the head with a one-digit hour. -/
def timeTokAtOne (cs : List Char) : Option (TimeTok × List Char) :=
  match cs with
  | c1 :: ':' :: a :: b :: ' ' :: p :: 'm' :: rest =>
    if c1.isDigit && a.isDigit && b.isDigit && (p == 'a' || p == 'p') then
      some (⟨[c1], [a, b], p⟩, rest)
    else none
  | _ => none

/-- Match `(\d{1,2}):(\d{2}) (a|p)m` at the head: the greedy `\d{1,2}` tries a
two-digit hour first and backtracks to one digit. -/
def timeTokAt (cs : List Char) : Option (TimeTok × List Char) :=
  match cs with
  | c1 :: c2 :: ':' :: a :: b :: ' ' :: p :: 'm' :: rest =>
    if c1.isDigit && c2.isDigit && a.isDigit && b.isDigit && (p == 'a' || p == 'p') then
      some (⟨[c1, c2], [a, b], p⟩, rest)
    else timeTokAtOne cs
  | _ => timeTokAtOne cs

/-- `re.findall` scan: leftmost, non-overlapping matches.  The fuel argument
(always instantiated with the list length) bounds the iteration; every step
consumes at least one character, so the fuel never runs out. -/
def timeToks : Nat → List Char → List TimeTok
  | 0, _ => []
  | _ + 1, [] => []
  | fuel + 1, c :: cs =>
    match timeTokAt (c :: cs) with
    | some (t, rest) => t :: timeToks fuel rest
    | none => timeToks fuel cs

/-- 24-hour conversion of one token: hour mod 12 (+12 for pm), zero-padded to
two digits, minutes passed through. -/
def convertOneTok (t : TimeTok) : String :=
  let h := digitsToNat t.hour % 12 + (if t.ampm == 'p' then 12 else 0)
  let hs := toString h
  let hs := if hs.length == 2 then hs else "0" ++ hs
  hs ++ t.minute.asString

/-- `Parser.convertTimeGroup` (src/Parse.py): find all `(\d{1,2}):(\d{2}) (a|p)m`
tokens; unless exactly two are found return "TBA"; otherwise convert each hour
mod 12 (+12 for pm), zero-pad to two digits, keep the minutes, and join the two
converted tokens with " - ".  (The Python `len(time) != 4` guard is dead code:
`findall` with four groups always yields 4-tuples; the `" - ".join` over the
exactly-two converted tokens is written out directly.) -/
def convertTimeGroup (time_group : String) : String :=
  match timeToks time_group.data.length time_group.data with
  | [t1, t2] => convertOneTok t1 ++ " - " ++ convertOneTok t2
  | _ => "TBA"

/-- Match of `dateSearch = \w+,\s\w+\s\d+` anchored at the given position.
Each greedy run is forced (the character class of a run and its required
successor are disjoint), so the scan is deterministic. -/
def dateMatchAt (cs : List Char) : Option (List Char) :=
  let (w1, r1) := cs.span isWordCh
  if w1.isEmpty then none else
  match r1 with
  | ',' :: sp1 :: r3 =>
    if isSpaceCh sp1 then
      let (w2, r4) := r3.span isWordCh
      if w2.isEmpty then none else
      match r4 with
      | sp2 :: r5 =>
        if isSpaceCh sp2 then
          let (dg, _) := r5.span Char.isDigit
          if dg.isEmpty then none
          else some (w1 ++ ',' :: sp1 :: (w2 ++ sp2 :: dg))
        else none
      | [] => none
    else none
  | _ => none

/-- Leftmost-match scan used for `re.search`-style first matches. -/
def scanFirst (m : List Char → Option (List Char)) : List Char → Option (List Char)
  | [] => m []
  | c :: cs =>
    match m (c :: cs) with
    | some g => some g
    | none => scanFirst m cs

/-- First match of `dateSearch` in a string. -/
def firstDateMatch (s : String) : Option String :=
  (scanFirst dateMatchAt s.data).map List.asString

/-- Match of `timeSearch = \d+:\d\d\s[PA]M\s*(‐|-)\s*\d+:\d\d [PA]M` anchored at
the given position (note: uppercase meridiems; the first one is preceded by
`\s`, the second by a literal space). -/
def timeMatchAt (cs : List Char) : Option (List Char) :=
  let (d1, r1) := cs.span Char.isDigit
  if d1.isEmpty then none else
  match r1 with
  | ':' :: a :: b :: sp :: p :: 'M' :: r4 =>
    if a.isDigit && b.isDigit && isSpaceCh sp && (p == 'P' || p == 'A') then
      let (ws1, r5) := r4.span isSpaceCh
      match r5 with
      | hy :: r6 =>
        if hy == '‐' || hy == '-' then
          let (ws2, r7) := r6.span isSpaceCh
          let (d2, r8) := r7.span Char.isDigit
          if d2.isEmpty then none else
          match r8 with
          | ':' :: e :: f :: ' ' :: q :: 'M' :: _ =>
            if e.isDigit && f.isDigit && (q == 'P' || q == 'A') then
              some (d1 ++ ':' :: a :: b :: sp :: p :: 'M' ::
                (ws1 ++ hy :: (ws2 ++ d2 ++ ':' :: e :: f :: ' ' :: q :: ['M'])))
            else none
          | _ => none
        else none
      | [] => none
    else none
  | _ => none

/-- First match of `timeSearch` in a string. -/
def firstTimeMatch (s : String) : Option String :=
  (scanFirst timeMatchAt s.data).map List.asString

/-- `titleSearch.match`: anchored prefix match of
`\d+:\d\d [AP]M\s+(‐|-)\s+\d+:\d\d\s[AP]M\sExams`. -/
def titleMatch (s : String) : Bool :=
  let cs := s.data
  let (d1, r1) := cs.span Char.isDigit
  if d1.isEmpty then false else
  match r1 with
  | ':' :: a :: b :: ' ' :: p :: 'M' :: r2 =>
    if a.isDigit && b.isDigit && (p == 'A' || p == 'P') then
      let (ws1, r3) := r2.span isSpaceCh
      if ws1.isEmpty then false else
      match r3 with
      | hy :: r4 =>
        if hy == '‐' || hy == '-' then
          let (ws2, r5) := r4.span isSpaceCh
          if ws2.isEmpty then false else
          let (d2, r6) := r5.span Char.isDigit
          if d2.isEmpty then false else
          match r6 with
          | ':' :: e :: f :: sp :: q :: 'M' :: sp2 :: 'E' :: 'x' :: 'a' :: 'm' :: 's' :: _ =>
            e.isDigit && f.isDigit && isSpaceCh sp && (q == 'A' || q == 'P') && isSpaceCh sp2
          | _ => false
        else false
      | [] => false
    else false
  | _ => false

/-- Month candidates for strptime's `%m`, in CPython's alternation order
`1[0-2]|0[1-9]|[1-9]` (each candidate is the parsed month and the rest). -/
def monthCands : List Char → List (Nat × List Char)
  | c1 :: c2 :: r =>
    (if c1 == '1' && chBetween '0' '2' c2 then [(10 + digitVal c2, r)] else []) ++
    (if c1 == '0' && chBetween '1' '9' c2 then [(digitVal c2, r)] else []) ++
    (if chBetween '1' '9' c1 then [(digitVal c1, c2 :: r)] else [])
  | [c1] => if chBetween '1' '9' c1 then [(digitVal c1, [])] else []
  | [] => []

/-- Day candidates for strptime's `%d`, in CPython's alternation order
`3[01]|[12]\d|0[1-9]|[1-9]`. -/
def dayCands : List Char → List (Nat × List Char)
  | c1 :: c2 :: r =>
    (if c1 == '3' && (c2 == '0' || c2 == '1') then [(30 + digitVal c2, r)] else []) ++
    (if (c1 == '1' || c1 == '2') && c2.isDigit then [(10 * digitVal c1 + digitVal c2, r)] else []) ++
    (if c1 == '0' && chBetween '1' '9' c2 then [(digitVal c2, r)] else []) ++
    (if chBetween '1' '9' c1 then [(digitVal c1, c2 :: r)] else [])
  | [c1] => if chBetween '1' '9' c1 then [(digitVal c1, [])] else []
  | [] => []

/-- Days per month for strptime's default year 1900 (not a leap year). -/
def daysInMonth (m : Nat) : Nat :=
  if m == 2 then 28
  else if m == 4 || m == 6 || m == 9 || m == 11 then 30
  else 31

/-- `datetime.strptime(s, "%m<sep>%d")`: the month alternation backtracks when
the separator or the day fails to match at all, but once a day candidate has
matched, leftover input or an invalid calendar day raises `ValueError`
(CPython checks unconverted data and constructs the date only after the regex
has committed to its first full match). -/
def strptimeMD (sep : Char) (s : String) : Option (Nat × Nat) :=
  let firstPath := (monthCands s.data).findSome? (fun mc =>
    match mc.2 with
    | c :: r2 =>
      if c == sep then ((dayCands r2).head?).map (fun dc => (mc.1, dc.1, dc.2)) else none
    | [] => none)
  match firstPath with
  | some (m, d, rest) => if rest.isEmpty && d ≤ daysInMonth m then some (m, d) else none
  | none => none

/-- Lowercased full weekday names for `%A`. -/
def weekdayFullNames : List String :=
  ["monday", "tuesday", "wednesday", "thursday", "friday", "saturday", "sunday"]

/-- Lowercased abbreviated weekday names for `%a`. -/
def weekdayAbbrevNames : List String := ["mon", "tue", "wed", "thu", "fri", "sat", "sun"]

/-- Lowercased abbreviated month names for `%b`. -/
def monthAbbrevNames : List String :=
  ["jan", "feb", "mar", "apr", "may", "jun", "jul", "aug", "sep", "oct", "nov", "dec"]

/-- Lowercased full month names for `%B`. -/
def monthFullNames : List String :=
  ["january", "february", "march", "april", "may", "june", "july", "august",
   "september", "october", "november", "december"]

/-- Title-cased month abbreviations used by `strftime("%b ...")`. -/
def monthTitles : List String :=
  ["Jan", "Feb", "Mar", "Apr", "May", "Jun", "Jul", "Aug", "Sep", "Oct", "Nov", "Dec"]

/-- Case-insensitive name alternation (strptime name groups); returns the
1-based index of the matched name and the rest.  None of the name tables has
one entry that is a prefix of another, so the choice is deterministic. -/
def matchNameCIAux : List String → Nat → List Char → Option (Nat × List Char)
  | [], _, _ => none
  | n :: ns, i, cs =>
    let nd := n.data
    if (cs.take nd.length).map Char.toLower == nd then some (i + 1, cs.drop nd.length)
    else matchNameCIAux ns (i + 1) cs

/-- Case-insensitive match of one of `names` at the head of `cs`. -/
def matchNameCI (names : List String) (cs : List Char) : Option (Nat × List Char) :=
  matchNameCIAux names 0 cs

/-- `datetime.strptime(s, "%<weekday>, %<month> %d")` where `weekdays` and
`months` pick the concrete directives: weekday name, literal comma, `\s+`,
month name, `\s+`, day, end of input, calendar validation. -/
def strptimeWdMD (weekdays months : List String) (s : String) : Option (Nat × Nat) :=
  match matchNameCI weekdays s.data with
  | none => none
  | some (_, r1) =>
    match r1 with
    | ',' :: r2 =>
      let (sp1, r3) := r2.span isSpaceCh
      if sp1.isEmpty then none else
      match matchNameCI months r3 with
      | none => none
      | some (m, r4) =>
        let (sp2, r5) := r4.span isSpaceCh
        if sp2.isEmpty then none else
        match (dayCands r5).head? with
        | none => none
        | some (d, r6) => if r6.isEmpty && d ≤ daysInMonth m then some (m, d) else none
    | _ => none

/-- Zero-pad a Nat to two digits (strftime `%d`). -/
def pad2 (n : Nat) : String := if n < 10 then "0" ++ toString n else toString n

/-- `parsed_date.replace(year=year).strftime("%b %d, %Y")`. -/
def renderDate (year m d : Nat) : String :=
  (monthTitles.getD (m - 1) "") ++ " " ++ pad2 d ++ ", " ++ toString year

/-- The local `date` helper of `Parser.parseBlock`: try the four formats
`%m/%d`, `%m-%d`, `%A, %b %d`, `%A, %B %d` in order; on the first success
stamp the document year and render `"%b %d, %Y"`; if none matches the
accumulator becomes Python `None` (here `none`). -/
def dateHelper (year : Nat) (raw : String) : Option String :=
  match strptimeMD '/' raw with
  | some md => some (renderDate year md.1 md.2)
  | none =>
    match strptimeMD '-' raw with
    | some md => some (renderDate year md.1 md.2)
    | none =>
      match strptimeWdMD weekdayFullNames monthAbbrevNames raw with
      | some md => some (renderDate year md.1 md.2)
      | none =>
        match strptimeWdMD weekdayFullNames monthFullNames raw with
        | some md => some (renderDate year md.1 md.2)
        | none => none

/-!
Substitution semantics.  `dateSearch.sub(date, s)` and `timeSearch.sub(time, s)`
use callbacks that return Python `None`; on the modern CPython running this
code (verified on 3.11) a `None` replacement is treated as the empty string,
so every match is removed from the text and the callback runs once per match.
The callbacks only mutate the nonlocal accumulators, so the substitution is
modelled as one scan producing (list of matches, text with matches removed),
followed by a fold of the accumulator updates over the match list.
-/

/-- Leftmost non-overlapping scan of `dateSearch`, returning all matches and
the input with the matches removed (empty-string replacement). -/
def dateScan : Nat → List Char → List (List Char) × List Char
  | 0, l => ([], l)
  | _ + 1, [] => ([], [])
  | fuel + 1, c :: cs =>
    match dateMatchAt (c :: cs) with
    | some g =>
      let (ms, out) := dateScan fuel ((c :: cs).drop g.length)
      (g :: ms, out)
    | none =>
      let (ms, out) := dateScan fuel cs
      (ms, c :: out)

/-- Leftmost non-overlapping scan of `timeSearch`, returning all matches and
the input with the matches removed. -/
def timeScan : Nat → List Char → List (List Char) × List Char
  | 0, l => ([], l)
  | _ + 1, [] => ([], [])
  | fuel + 1, c :: cs =>
    match timeMatchAt (c :: cs) with
    | some g =>
      let (ms, out) := timeScan fuel ((c :: cs).drop g.length)
      (g :: ms, out)
    | none =>
      let (ms, out) := timeScan fuel cs
      (ms, c :: out)

/-- All `dateSearch` matches of a string, in order. -/
def dateMatchList (s : String) : List String :=
  ((dateScan s.data.length s.data).1).map List.asString

/-- The string with all `dateSearch` matches removed (the text the subsequent
`timeSearch.sub` operates on). -/
def dateStripped (s : String) : String :=
  ((dateScan s.data.length s.data).2).asString

/-- All `timeSearch` matches of a string, in order. -/
def timeMatchList (s : String) : List String :=
  ((timeScan s.data.length s.data).1).map List.asString

/-- A DataFrame cell: `none` models NaN. -/
abbrev Cell := Option String

/-- The accumulator pair carried across the rows of one block.
`sectionDate` mirrors the Python variable exactly: `some ""` is the initial
empty string, `none` is Python `None` (unparseable date), `some d` a rendered
date.  `sectionTime` is always a string in the Python code. -/
structure SectionState where
  sectionDate : Option String
  sectionTime : String
deriving DecidableEq, Repr

/-- Both accumulators start empty (`sectionDate = ""`, `sectionTime = ""`). -/
def initState : SectionState := ⟨some "", ""⟩

/-- One output row of the reconstructed schedule table.  In version 1 the
`days`/`time` cells are the raw input cells (the converted meeting time is
written only to the `iterrows` row copy, never back to the block); in version
2 they are the split/converted values. -/
structure ScheduleRow where
  days : Option String
  time : Option String
  finalDate : Option String
  finalTime : String
deriving DecidableEq, Repr

/-- Effect on the accumulators of `dateSearch.sub(date, s)` followed by
`timeSearch.sub(time, s)`: every date match re-parses into `sectionDate`
(last match wins), and every time match of the date-stripped text captures
into `sectionTime` while it is still empty (first such match wins). -/
def applySubs (year : Nat) (st : SectionState) (s : String) : SectionState :=
  let (dms, s1) := dateScan s.data.length s.data
  let d := dms.foldl (fun _ g => dateHelper year (List.asString g)) st.sectionDate
  let (tms, _) := timeScan s1.length s1
  let t := tms.foldl
    (fun t g => if t == "" then convertTimeGroup (pyLower (List.asString g)) else t)
    st.sectionTime
  ⟨d, t⟩

/-- Version-1 per-row accumulator step.  A NaN cell raises `TypeError` inside
`dateSearch.sub` (caught by the per-row `try`), leaving the state unchanged;
the later hyphen substitution and `convertTimeGroup` call write only to the
`iterrows` copy and never raise, so they have no observable effect. -/
def stepV1 (year : Nat) (st : SectionState) (cell : Cell) : SectionState :=
  match cell with
  | none => st
  | some s => applySubs year st s

/-- The row outputs of the version-1 loop: each row keeps its raw cells and is
annotated with the accumulator state after its own cell was processed. -/
def v1Rows (year : Nat) : SectionState → List (Cell × Cell) → List ScheduleRow
  | _, [] => []
  | st, r :: rs =>
    let st' := stepV1 year st r.2
    ⟨r.1, r.2, st'.sectionDate, st'.sectionTime⟩ :: v1Rows year st' rs

/-- `Parser.parseBlock(block, 1)`: run the accumulator over the rows, then
overwrite the first row's `finalTime` with the second row's
(`block['finalTime'].iloc[0] = block['finalTime'].iloc[1]`).  On an empty
block the `finalTime` column does not exist (`KeyError`); on a one-row block
`iloc[1]` raises `IndexError`; both escape `parseBlock`. -/
def parseBlockV1 (year : Nat) (rows : List (Cell × Cell)) : Except PyErr (List ScheduleRow) :=
  match v1Rows year initState rows with
  | [] => .error .keyError
  | [_] => .error .indexError
  | r0 :: r1 :: rest => .ok ({ r0 with finalTime := r1.finalTime } :: r1 :: rest)

/-- Match `\d{1,2}:\d{2} [AP]M` at the head with a one-digit hour. -/
def clockTimeAtOne (cs : List Char) : Option (List Char × List Char) :=
  match cs with
  | c1 :: ':' :: a :: b :: ' ' :: p :: 'M' :: rest =>
    if c1.isDigit && a.isDigit && b.isDigit && (p == 'A' || p == 'P') then
      some ([c1, ':', a, b, ' ', p, 'M'], rest)
    else none
  | _ => none

/-- Match `\d{1,2}:\d{2} [AP]M` at the head (greedy two-digit hour first). -/
def clockTimeAt (cs : List Char) : Option (List Char × List Char) :=
  match cs with
  | c1 :: c2 :: ':' :: a :: b :: ' ' :: p :: 'M' :: rest =>
    if c1.isDigit && c2.isDigit && a.isDigit && b.isDigit && (p == 'A' || p == 'P') then
      some ([c1, c2, ':', a, b, ' ', p, 'M'], rest)
    else clockTimeAtOne cs
  | _ => clockTimeAtOne cs

/-- `split_schedule` (src/Parse.py, version 2):
`re.match(r'([A-Za-z]+)\s*\r?\s*(\d{1,2}:\d{2} [AP]M)\s*(\d{1,2}:\d{2} [AP]M)', s)`;
returns (days, start, end) or `none` for the `(None, None, None)` triple.
The letter run and each whitespace run are forced (letters cannot match the
digit that must follow, whitespace cannot), so the scan is deterministic, and
`\s*\r?\s*` accepts exactly an arbitrary whitespace run. -/
def split_schedule (s : String) : Option (String × String × String) :=
  let cs := s.data
  let (ltrs, r1) := cs.span Char.isAlpha
  if ltrs.isEmpty then none else
  let r2 := r1.dropWhile isSpaceCh
  match clockTimeAt r2 with
  | none => none
  | some (t1, r3) =>
    let r4 := r3.dropWhile isSpaceCh
    match clockTimeAt r4 with
    | none => none
    | some (t2, _) => some (ltrs.asString, t1.asString, t2.asString)

/-- One raw extracted table for version 2: two column labels plus rows. -/
structure BlockV2 where
  col0 : String
  col1 : String
  rows : List (Cell × Cell)
deriving DecidableEq, Repr

/-- Version-2 header adjustment: if neither column label matches `titleSearch`
the first data row is a duplicate of the header and is dropped; the next row
(the true header) is always dropped.  `DataFrame.drop(index=0)` on a frame
without that index raises `KeyError`. -/
def dropHeaderV2 (b : BlockV2) : Except PyErr (List (Cell × Cell)) :=
  if titleMatch b.col0 || titleMatch b.col1 then
    match b.rows with
    | [] => .error .keyError
    | _ :: rest => .ok rest
  else
    match b.rows with
    | [] => .error .keyError
    | [_] => .error .keyError
    | _ :: _ :: rest => .ok rest

/-- Version-2 per-row step.  `split_schedule(row[0])` raises `TypeError` on a
NaN cell; the `pd.isna(row[1])` guard plus the two substitutions on the
exam-info cell are exactly the version-1 accumulator step (`stepV1`), and
never raise; building the `Time` string from the split parts raises
`AttributeError` (`None.lower()`) when the grammar did not match — Python
raises it after the substitutions, but since they never raise the check is
hoisted before them here, which is observationally identical.  No per-row
`try` exists in version 2, so these errors escape `parseBlock`. -/
def stepV2 (year : Nat) (st : SectionState) (row : Cell × Cell) :
    Except PyErr (SectionState × ScheduleRow) :=
  match row.1 with
  | none => .error .typeError
  | some s0 =>
    match split_schedule s0 with
    | none => .error .attributeError
    | some (d, t1, t2) =>
      let st' := stepV1 year st row.2
      .ok (st', ⟨some d, some (convertTimeGroup (pyLower t1 ++ " - " ++ pyLower t2)),
                 st'.sectionDate, st'.sectionTime⟩)

/-- The version-2 row loop; the first raising row aborts the whole block. -/
def v2Loop (year : Nat) (st : SectionState) : List (Cell × Cell) → Except PyErr (List ScheduleRow)
  | [] => .ok []
  | r :: rs =>
    match stepV2 year st r with
    | .error e => .error e
    | .ok (st', out) =>
      match v2Loop year st' rs with
      | .error e => .error e
      | .ok outs => .ok (out :: outs)

/-- `Parser.parseBlock(block, 2)`. -/
def parseBlockV2 (year : Nat) (b : BlockV2) : Except PyErr (List ScheduleRow) :=
  match dropHeaderV2 b with
  | .error e => .error e
  | .ok rs => v2Loop year initState rs

/-- Final whitespace strip and unicode-hyphen normalisation applied to every
string cell of the assembled schedule
(`schedule.apply(lambda x: x.str.strip()).apply(lambda x: x.str.replace("‐", "-"))`). -/
def cleanStr (s : String) : String := chReplace '‐' '-' (pyStrip s)

/-- Cell-wise cleaning of one row (`.str` operations propagate NaN/None). -/
def cleanRow (r : ScheduleRow) : ScheduleRow :=
  ⟨r.days.map cleanStr, r.time.map cleanStr, r.finalDate.map cleanStr, cleanStr r.finalTime⟩

/-- `ParserV2.parseFile` skips chunks whose column labels contain
"Reading and Conflict Periods" or "Common Exams". -/
def excludedV2 (b : BlockV2) : Bool :=
  b.col0 == "Reading and Conflict Periods" || b.col1 == "Reading and Conflict Periods" ||
  b.col0 == "Common Exams" || b.col1 == "Common Exams"

/-- Concatenation of the per-chunk `parseBlock` results, as in the
`ParserV2.parseFile` loop (`pd.concat` along rows). -/
def assembleBlocksV2 (year : Nat) : List BlockV2 → Except PyErr (List ScheduleRow)
  | [] => .ok []
  | b :: bs =>
    if excludedV2 b then assembleBlocksV2 year bs
    else
      match parseBlockV2 year b with
      | .error e => .error e
      | .ok rs =>
        match assembleBlocksV2 year bs with
        | .error e => .error e
        | .ok rest => .ok (rs ++ rest)

/-- The assembled schedule of a `ParserV2.parseFile` run: concatenated block
results, cleaned cell-wise; `set_index(['Days', 'Time'])` only designates the
key columns and keeps every row. -/
def parseFileV2Schedule (year : Nat) (chunks : List BlockV2) : Except PyErr (List ScheduleRow) :=
  match assembleBlocksV2 year chunks with
  | .error e => .error e
  | .ok rows => .ok (rows.map cleanRow)

/-- Is an optional string populated (non-null and non-empty)? -/
def populatedOpt (o : Option String) : Bool :=
  match o with
  | some s => s != ""
  | none => false

/-- The finalDate/finalTime pair of a row is balanced: both populated or both
empty. -/
def rowBalanced (r : ScheduleRow) : Bool :=
  populatedOpt r.finalDate == (r.finalTime != "")

/-- The accumulator pair is balanced: both populated or both empty. -/
def stBalanced (st : SectionState) : Bool :=
  populatedOpt st.sectionDate == (st.sectionTime != "")

/-- An exam-info cell is announcement-balanced: either it contains no date
match and no time-range match, or it contains both, with the last date match
parsing to a populated rendered date. -/
def cellBalanced (year : Nat) (c : Cell) : Bool :=
  match c with
  | none => true
  | some s =>
    let dms := dateMatchList s
    let tms := timeMatchList (dateStripped s)
    (dms.isEmpty && tms.isEmpty) ||
      (!dms.isEmpty && !tms.isEmpty &&
        populatedOpt (dms.foldl (fun _ raw => dateHelper year raw) none))

/-- A version-2 row whose first cell is NaN or fails the day/time grammar:
processing it raises (`TypeError` or `AttributeError` respectively). -/
def v2RowRaises (p : Cell × Cell) : Bool :=
  match p.1 with
  | none => true
  | some s => (split_schedule s).isNone

/-- Did an `Except` computation succeed? -/
def exceptIsOk {ε α : Type} : Except ε α → Bool
  | .ok _ => true
  | .error _ => false

/-- Characters in the (typo-prone) class `[A-z]`: codes between `A` and `z`,
which also admits `[ \ ] ^ _` and the backquote. -/
def isAzCh (c : Char) : Bool := Nat.ble 'A'.toNat c.toNat && Nat.ble c.toNat 'z'.toNat

/-- Take exactly `n` characters of class `[A-z]`. -/
def azTake : Nat → List Char → Option (List Char × List Char)
  | 0, cs => some ([], cs)
  | n + 1, c :: cs =>
    if isAzCh c then (azTake n cs).map (fun p => (c :: p.1, p.2)) else none
  | _ + 1, [] => none

/-- Continuation `, \w{3} \d{1,2}` of the common-exams row regex (`\d{1,2}`
greedy, prefix match). -/
def commonDateTail (cs : List Char) : Option (List Char) :=
  match cs with
  | ',' :: ' ' :: w1 :: w2 :: w3 :: ' ' :: r2 =>
    if isWordCh w1 && isWordCh w2 && isWordCh w3 then
      match r2 with
      | d1 :: d2 :: _ =>
        if d1.isDigit then
          some (',' :: ' ' :: w1 :: w2 :: w3 :: ' ' :: d1 :: (if d2.isDigit then [d2] else []))
        else none
      | [d1] => if d1.isDigit then some [',', ' ', w1, w2, w3, ' ', d1] else none
      | [] => none
    else none
  | _ => none

/-- `[A-z]{3,5}, \w{3} \d{1,2}` anchored at the given position: the greedy
counted repeat tries 5, then 4, then 3 letters. -/
def commonDateAt (cs : List Char) : Option (List Char) :=
  ((azTake 5 cs).bind fun p => (commonDateTail p.2).map (p.1 ++ ·)) <|>
  ((azTake 4 cs).bind fun p => (commonDateTail p.2).map (p.1 ++ ·)) <|>
  ((azTake 3 cs).bind fun p => (commonDateTail p.2).map (p.1 ++ ·))

/-- Lazy `.+?` scan: find the shortest non-empty prefix (of non-newline
characters) after which the date part matches. -/
def commonScanLazy : List Char → List Char → Option (String × String)
  | _, [] => none
  | acc, c :: rest =>
    if c == '\n' then none
    else
      match commonDateAt rest with
      | some g => some ((acc ++ [c]).asString, g.asString)
      | none => commonScanLazy (acc ++ [c]) rest

/-- `re.match(r'(None|.+?)([A-z]{3,5}, \w{3} \d{1,2})', s)` from
`Parser.parseCommon`: the alternation tries the literal `None` first, then
the lazy dot; returns (group 1, group 2). -/
def commonMatch (s : String) : Option (String × String) :=
  let cs := s.data
  let noneBranch : Option (String × String) :=
    match cs with
    | 'N' :: 'o' :: 'n' :: 'e' :: r => (commonDateAt r).map (fun g => ("None", g.asString))
    | _ => none
  noneBranch <|> commonScanLazy [] cs

/-- `s.replace('\r', '')`. -/
def stripCR (s : String) : String := (s.data.filter (· != '\r')).asString

/-- `re.sub(r"\w+(?=,)", lambda m: m.group()[:3], s)`: abbreviate every word
run that is directly followed by a comma to its first three characters.  The
fuel is the list length; every step consumes at least one character. -/
def daySubAux : Nat → List Char → List Char
  | 0, l => l
  | _ + 1, [] => []
  | fuel + 1, c :: cs =>
    let (w, r) := (c :: cs).span isWordCh
    if !w.isEmpty && r.head? == some ',' then w.take 3 ++ daySubAux fuel r
    else c :: daySubAux fuel cs

/-- String wrapper for `daySubAux`. -/
def daySub (s : String) : String := (daySubAux s.data.length s.data).asString

/-- The `convert` helper of `Parser.parseCommon`: abbreviate the weekday,
then `strptime("%a, %b %d")` with a `"%a, %B %d"` fallback; a failure of the
fallback raises `ValueError` out of `parseCommon`. -/
def convertCommonDate (year : Nat) (val : String) : Except PyErr String :=
  let s := daySub val
  match strptimeWdMD weekdayAbbrevNames monthAbbrevNames s with
  | some md => .ok (renderDate year md.1 md.2)
  | none =>
    match strptimeWdMD weekdayAbbrevNames monthFullNames s with
    | some md => .ok (renderDate year md.1 md.2)
    | none => .error .valueError


/-- The `splitCourse` helper: department is token 0, token 1 is split on "/"
into catalog numbers; fewer than two tokens raises `IndexError`. -/
def splitCourse (s : String) : Except PyErr (List String) :=
  match pysplitWs s with
  | c :: n :: _ => .ok ((pySplitOn "/" n).map (fun number => c ++ " " ++ number))
  | _ => .error .indexError

/-- Error-propagating flat map (each Python raise aborts the whole
`parseCommon` call). -/
def flatMapExcept (f : String → Except PyErr (List String)) :
    List String → Except PyErr (List String)
  | [] => .ok []
  | x :: xs =>
    match f x with
    | .error e => .error e
    | .ok ys =>
      match flatMapExcept f xs with
      | .error e => .error e
      | .ok rest => .ok (ys ++ rest)

/-- One expanded common-exam table entry. -/
structure CommonEntry where
  course : String
  date : String
  time : String
deriving DecidableEq, Repr

/-- The per-row pipeline of `Parser.parseCommon` for one raw common-exams row
(first cell `c0` = concatenated courses+date, sibling cell `c1` = time):
regex re-split, carriage-return stripping, time normalisation, discarding
`"None"` rows, date conversion, comma then slash expansion; the final
column-wise strip/hyphen cleaning applies to Date and Time (Course is the
index by then).  A row the regex does not match leaves its Time cell NaN and
the later `.apply(strip_carriage_return)` raises `AttributeError`. -/
def parseCommonRow (year : Nat) (c0 c1 : String) : Except PyErr (List CommonEntry) :=
  match commonMatch c0 with
  | none => .error .attributeError
  | some (course0, date0) =>
    let course1 := stripCR course0
    let date1 := stripCR date0
    let time1 := stripCR c1
    let time2 := convertTimeGroup (pyLower time1)
    if course1 == "None" then .ok []
    else
      match convertCommonDate year date1 with
      | .error e => .error e
      | .ok date2 =>
        match flatMapExcept splitCourse (pySplitOn ", " course1) with
        | .error e => .error e
        | .ok courses => .ok (courses.map fun c => ⟨c, cleanStr date2, cleanStr time2⟩)

/-- `re.match(r"\d+\.json", file.name)`: at least one digit, then ".json"
(prefix match). -/
def nameMatchesTerm (s : String) : Bool :=
  let (dg, r) := s.data.span Char.isDigit
  !dg.isEmpty && r.take 5 == ['.', 'j', 's', 'o', 'n']

/-- The nested try/except chain of `Revise.iterFiles`: try ParserV1, fall
back to ParserV2, then ParserV3; `none` when all three raise. -/
def tryThree {ε α : Type} (p1 p2 p3 : String → Except ε α) (f : String) : Option α :=
  match p1 f with
  | .ok r => some r
  | .error _ =>
    match p2 f with
    | .ok r => some r
    | .error _ =>
      match p3 f with
      | .ok r => some r
      | .error _ => none

/-- `Revise.iterFiles` over the data directory: skip non-`\d+\.json` names,
try the three parsers in order on each remaining file, collect the processed
(file, result) pairs and the set of failed file stems. -/
def iterFilesModel {ε α : Type} (p1 p2 p3 : String → Except ε α) :
    List String → List (String × α) × List String
  | [] => ([], [])
  | f :: fs =>
    let rest := iterFilesModel p1 p2 p3 fs
    if nameMatchesTerm f then
      match tryThree p1 p2 p3 f with
      | some r => ((f, r) :: rest.1, rest.2)
      | none => (rest.1, f :: rest.2)
    else rest

/-- One meeting record of a section (`data[1][k]`): index 0 is the period
index, index 1 the days string; indices 6 and 7 are the mutable final-date
and final-time slots. -/
structure Meeting where
  periodIdx : Nat
  days : String
  dateSlot : Int
  timeSlot : Int
deriving DecidableEq, Repr

/-- The section fields `Section.__init__` reads: `data[1]` (meetings),
`data[2]` (credits), `data[3]` (schedule-type index). -/
structure SectionData where
  meetings : List Meeting
  credits : Int
  scheduleTypeIdx : Nat
deriving DecidableEq, Repr

/-- The shared `caches` table of the term document. -/
structure Caches where
  periods : List String
  scheduleTypes : List String
deriving DecidableEq, Repr

/-- The constructed `Section` object. -/
structure SectionRec where
  period : String
  days : String
  credits : Int
  scheduleType : String
deriving DecidableEq, Repr

/-- `Section.__init__`: raises `LookupError("No Section Information")` when
`data[1]` is empty; out-of-range cache lookups raise `IndexError`. -/
def sectionInit (cache : Caches) (d : SectionData) : Except PyErr SectionRec :=
  match d.meetings with
  | [] => .error .lookupError
  | info :: _ =>
    match cache.periods[info.periodIdx]? with
    | none => .error .indexError
    | some period =>
      match cache.scheduleTypes[d.scheduleTypeIdx]? with
      | none => .error .indexError
      | some sched => .ok ⟨period, info.days, d.credits, sched⟩

/-- `section.set(6, dateIdx)` / `section.set(7, timeIdx)`: mutate slots 6 and
7 of the first meeting record. -/
def setSlots (d : SectionData) (di ti : Int) : SectionData :=
  match d.meetings with
  | [] => d
  | m :: rest => { d with meetings := { m with dateSlot := di, timeSlot := ti } :: rest }

/-- `int(np.where(arr == x)[0][0])`: index of the first occurrence, raising
`IndexError` when the value is absent. -/
def npWhereIdx (l : List String) (x : String) : Except PyErr Int :=
  match l.findIdx? (fun y => y == x) with
  | some i => .ok (Int.ofNat i)
  | none => .error .indexError

/-- `course in self.common.index` / `self.common.loc[course]`. -/
def commonLookup (common : List CommonEntry) (course : String) : Option CommonEntry :=
  common.find? (fun e => e.course == course)

/-- The `lookup` helper of `Revise.process`: find the schedule row indexed by
(days, period). -/
def scheduleLookup (sched : List ScheduleRow) (days period : String) : Option ScheduleRow :=
  sched.find? (fun r => r.days == some days && r.time == some period)

/-- The per-section body of `Revise.process`: construct the `Section` (any
constructor exception is swallowed by `except: pass`, skipping the section),
filter to `Lecture*` sections of at least 2 credit hours, then write the
date/time indices from the common-exam table (by course) or the schedule
table (by days/period); a value missing from the global date/time lists
raises `IndexError` out of `process`. -/
def processSection (cache : Caches) (common : List CommonEntry) (sched : List ScheduleRow)
    (dates times : List String) (course : String) (d : SectionData) :
    Except PyErr SectionData :=
  match sectionInit cache d with
  | .error _ => .ok d
  | .ok sec =>
    if sec.scheduleType != "Lecture*" || sec.credits < 2 then .ok d
    else
      match commonLookup common course with
      | some e =>
        match npWhereIdx dates e.date with
        | .error er => .error er
        | .ok di =>
          match npWhereIdx times e.time with
          | .error er => .error er
          | .ok ti => .ok (setSlots d di ti)
      | none =>
        match scheduleLookup sched sec.days sec.period with
        | none => .ok d
        | some r =>
          match r.finalDate with
          | none => .error .indexError
          | some ds =>
            match npWhereIdx dates ds with
            | .error er => .error er
            | .ok di =>
              match npWhereIdx times r.finalTime with
              | .error er => .error er
              | .ok ti => .ok (setSlots d di ti)

/-!
Helper lemmas shared by several claim theorems.
-/

/-- `convertTimeGroup` never returns the empty string. -/
theorem convertTimeGroup_ne_empty (s : String) : convertTimeGroup s ≠ "" := by
  unfold convertTimeGroup
  split
  · intro h
    have hlen := congrArg String.length h
    simp [String.length_append] at hlen
    exact absurd hlen.1.2 (by decide)
  · intro h
    exact absurd h (by decide)

/-- The `sectionTime` capture fold never changes a non-empty accumulator. -/
theorem timeFold_persist (ms : List String) (t : String) (h : t ≠ "") :
    ms.foldl (fun t raw => if t == "" then convertTimeGroup (pyLower raw) else t) t = t := by
  induction ms with
  | nil => rfl
  | cons g gs ih =>
    simp only [List.foldl_cons]
    rw [if_neg (by simpa using h)]
    exact ih

/-- The `sectionDate` overwrite fold only depends on the last element when the
match list is non-empty. -/
theorem dateFold_init_irrel (g : String → Option String) (l : List String)
    (a b : Option String) (h : l ≠ []) :
    l.foldl (fun _ r => g r) a = l.foldl (fun _ r => g r) b := by
  cases l with
  | nil => exact absurd rfl h
  | cons x xs => simp

/-- `applySubs` sets `sectionDate` to the fold of re-parses over the date
match list. -/
theorem applySubs_date (year : Nat) (st : SectionState) (s : String) :
    (applySubs year st s).sectionDate =
      (dateMatchList s).foldl (fun _ raw => dateHelper year raw) st.sectionDate := by
  unfold applySubs dateMatchList
  simp [List.foldl_map]

/-- `applySubs` sets `sectionTime` to the first-wins capture fold over the
time matches of the date-stripped text. -/
theorem applySubs_time (year : Nat) (st : SectionState) (s : String) :
    (applySubs year st s).sectionTime =
      (timeMatchList (dateStripped s)).foldl
        (fun t raw => if t == "" then convertTimeGroup (pyLower raw) else t)
        st.sectionTime := by
  unfold applySubs timeMatchList dateStripped
  simp [List.foldl_map, List.asString]

/-- A balanced accumulator stays balanced across a version-1 row step whose
exam-info cell is announcement-balanced. -/
theorem stepV1_balanced (year : Nat) (st : SectionState) (cell : Cell)
    (hc : cellBalanced year cell = true) (hst : stBalanced st = true) :
    stBalanced (stepV1 year st cell) = true := by
  cases cell with
  | none => exact hst
  | some s =>
    show stBalanced (applySubs year st s) = true
    unfold cellBalanced at hc
    rw [Bool.or_eq_true] at hc
    unfold stBalanced
    rw [applySubs_date, applySubs_time]
    rcases hc with h | h
    · rw [Bool.and_eq_true] at h
      rw [List.isEmpty_iff.mp h.1, List.isEmpty_iff.mp h.2]
      exact hst
    · rw [Bool.and_eq_true, Bool.and_eq_true] at h
      obtain ⟨⟨hd, ht⟩, hp⟩ := h
      have hd' : dateMatchList s ≠ [] := by
        intro hnil; rw [hnil] at hd; simp at hd
      have ht' : timeMatchList (dateStripped s) ≠ [] := by
        intro hnil; rw [hnil] at ht; simp at ht
      have h1 : populatedOpt
          ((dateMatchList s).foldl (fun _ raw => dateHelper year raw) st.sectionDate) = true := by
        rw [dateFold_init_irrel (dateHelper year) (dateMatchList s) st.sectionDate none hd']
        exact hp
      have h2 : (timeMatchList (dateStripped s)).foldl
          (fun t raw => if t == "" then convertTimeGroup (pyLower raw) else t)
          st.sectionTime ≠ "" := by
        obtain ⟨r, rs, hrs⟩ := List.exists_cons_of_ne_nil ht'
        rw [hrs, List.foldl_cons]
        by_cases hempty : st.sectionTime = ""
        · rw [hempty, if_pos (by rfl)]
          rw [timeFold_persist rs _ (convertTimeGroup_ne_empty _)]
          exact convertTimeGroup_ne_empty _
        · rw [if_neg (by simpa using hempty)]
          rw [timeFold_persist rs _ hempty]
          exact hempty
      rw [h1, Bool.true_beq]
      exact bne_iff_ne.mpr h2

/-- Every row emitted by the version-1 loop from a balanced state over
balanced cells is balanced. -/
theorem v1Rows_balanced (year : Nat) (rows : List (Cell × Cell)) :
    ∀ st : SectionState, (∀ p ∈ rows, cellBalanced year p.2 = true) →
      stBalanced st = true →
      ∀ r ∈ v1Rows year st rows, rowBalanced r = true := by
  induction rows with
  | nil => intro st _ _ r hr; simp [v1Rows] at hr
  | cons p ps ih =>
    intro st hcells hst r hr
    have hstep : stBalanced (stepV1 year st p.2) = true :=
      stepV1_balanced year st p.2 (hcells p (by simp)) hst
    simp only [v1Rows, List.mem_cons] at hr
    cases hr with
    | inl h =>
      subst h
      exact hstep
    | inr h =>
      exact ih (stepV1 year st p.2) (fun q hq => hcells q (by simp [hq])) hstep r h

/-- Success inversion for the version-2 row step. -/
theorem stepV2_ok (year : Nat) (st : SectionState) (c0 c1 : Cell)
    (st' : SectionState) (o : ScheduleRow)
    (h : stepV2 year st (c0, c1) = .ok (st', o)) :
    st' = stepV1 year st c1 ∧ o.finalDate = st'.sectionDate ∧
      o.finalTime = st'.sectionTime ∧ v2RowRaises (c0, c1) = false := by
  cases c0 with
  | none => simp [stepV2] at h
  | some s0 =>
    cases hs : split_schedule s0 with
    | none => simp [stepV2, hs] at h
    | some parts =>
      obtain ⟨d, t1, t2⟩ := parts
      simp only [stepV2, hs, Except.ok.injEq, Prod.mk.injEq] at h
      obtain ⟨h1, h2⟩ := h
      subst h1
      subst h2
      exact ⟨rfl, rfl, rfl, by simp [v2RowRaises, hs]⟩

/-- Every row emitted by a successful version-2 loop from a balanced state
over balanced cells is balanced. -/
theorem v2Loop_balanced (year : Nat) (rows : List (Cell × Cell)) :
    ∀ (st : SectionState) (out : List ScheduleRow),
      (∀ p ∈ rows, cellBalanced year p.2 = true) →
      stBalanced st = true →
      v2Loop year st rows = .ok out →
      ∀ r ∈ out, rowBalanced r = true := by
  induction rows with
  | nil =>
    intro st out _ _ hok r hr
    simp only [v2Loop, Except.ok.injEq] at hok
    subst hok
    simp at hr
  | cons p ps ih =>
    intro st out hcells hst hok r hr
    cases hstep : stepV2 year st p with
    | error e =>
      simp only [v2Loop, hstep] at hok
      exact absurd hok (by simp)
    | ok res =>
      obtain ⟨st', o⟩ := res
      simp only [v2Loop, hstep] at hok
      cases hrest : v2Loop year st' ps with
      | error e =>
        simp only [hrest] at hok
        exact absurd hok (by simp)
      | ok outs =>
        simp only [hrest, Except.ok.injEq] at hok
        subst hok
        obtain ⟨rc0, rc1⟩ := p
        obtain ⟨hst', hfd, hft, _⟩ := stepV2_ok year st rc0 rc1 st' o hstep
        have hbal' : stBalanced st' = true := by
          rw [hst']
          exact stepV1_balanced year st rc1 (hcells (rc0, rc1) (by simp)) hst
        rcases List.mem_cons.mp hr with h | h
        · subst h
          unfold rowBalanced
          rw [hfd, hft]
          exact hbal'
        · exact ih st' outs (fun q hq => hcells q (by simp [hq])) hbal' hrest r h

/-- A version-2 loop containing a row that raises cannot succeed. -/
theorem v2Loop_error_of_bad (year : Nat) (rows : List (Cell × Cell)) :
    ∀ st : SectionState, rows.any v2RowRaises = true →
      exceptIsOk (v2Loop year st rows) = false := by
  induction rows with
  | nil => intro st h; simp at h
  | cons p ps ih =>
    intro st h
    cases hstep : stepV2 year st p with
    | error e => simp [v2Loop, hstep, exceptIsOk]
    | ok res =>
      obtain ⟨st', o⟩ := res
      obtain ⟨rc0, rc1⟩ := p
      have hgood : v2RowRaises (rc0, rc1) = false :=
        (stepV2_ok year st rc0 rc1 st' o hstep).2.2.2
      rw [List.any_cons, hgood, Bool.false_or] at h
      have htail := ih st' h
      cases hrest : v2Loop year st' ps with
      | error e => simp [v2Loop, hstep, hrest, exceptIsOk]
      | ok outs => rw [hrest] at htail; exact absurd htail (by simp [exceptIsOk])

/-- The rows surviving the version-2 header adjustment are rows of the
original block. -/
theorem dropHeaderV2_sub (b : BlockV2) (rs : List (Cell × Cell))
    (h : dropHeaderV2 b = .ok rs) : ∀ p ∈ rs, p ∈ b.rows := by
  unfold dropHeaderV2 at h
  split at h
  · cases hr : b.rows with
    | nil => rw [hr] at h; exact absurd h (by simp)
    | cons a rest =>
      rw [hr] at h
      simp only [Except.ok.injEq] at h
      subst h
      intro p hp
      exact List.mem_cons_of_mem a hp
  · cases hr : b.rows with
    | nil => rw [hr] at h; exact absurd h (by simp)
    | cons a rest =>
      cases rest with
      | nil => rw [hr] at h; exact absurd h (by simp)
      | cons a2 rest2 =>
        rw [hr] at h
        simp only [Except.ok.injEq] at h
        subst h
        intro p hp
        exact List.mem_cons_of_mem a (List.mem_cons_of_mem a2 hp)

/-- Definitional unfolding of `assembleBlocksV2` on a non-empty chunk list. -/
theorem assembleBlocksV2_cons (year : Nat) (c : BlockV2) (cs : List BlockV2) :
    assembleBlocksV2 year (c :: cs) =
      if excludedV2 c then assembleBlocksV2 year cs
      else
        match parseBlockV2 year c with
        | .error e => .error e
        | .ok rcs =>
          match assembleBlocksV2 year cs with
          | .error e => .error e
          | .ok rest => .ok (rcs ++ rest) := rfl

/-- Every row of every successfully parsed, non-excluded chunk survives into
the concatenated assembly. -/
theorem assembleBlocksV2_mem (year : Nat) (chunks : List BlockV2) :
    ∀ (out : List ScheduleRow) (b : BlockV2) (rs : List ScheduleRow),
      assembleBlocksV2 year chunks = .ok out → b ∈ chunks →
      excludedV2 b = false → parseBlockV2 year b = .ok rs →
      ∀ r ∈ rs, r ∈ out := by
  induction chunks with
  | nil => intro out b rs _ hb; simp at hb
  | cons c cs ih =>
    intro out b rs hok hb hex hparse r hr
    rw [assembleBlocksV2_cons] at hok
    by_cases hexc : excludedV2 c = true
    · rw [if_pos hexc] at hok
      rcases List.mem_cons.mp hb with hbc | hbc
      · subst hbc; rw [hexc] at hex; exact absurd hex (by simp)
      · exact ih out b rs hok hbc hex hparse r hr
    · rw [Bool.not_eq_true] at hexc
      rw [if_neg (by simp [hexc])] at hok
      cases hc : parseBlockV2 year c with
      | error e => rw [hc] at hok; exact absurd hok (by simp)
      | ok rcs =>
        rw [hc] at hok
        cases hcs : assembleBlocksV2 year cs with
        | error e => rw [hcs] at hok; exact absurd hok (by simp)
        | ok rest =>
          rw [hcs] at hok
          simp only [Except.ok.injEq] at hok
          subst hok
          rcases List.mem_cons.mp hb with hbc | hbc
          · subst hbc
            rw [hparse] at hc
            simp only [Except.ok.injEq] at hc
            subst hc
            exact List.mem_append_left rest hr
          · exact List.mem_append_right rcs (ih rest b rs hcs hbc hex hparse r hr)

/-!
The claim theorems.
-/

/-- C1: `convertTimeGroup` is claimed (by the spec and by its own docstring)
to map `"10:20am - 2:50pm"` to `"1020 - 1450"`; the `findall` pattern
`(\d{1,2}):(\d{2}) (a|p)m` requires a space before the meridiem, so the
function actually returns `"TBA"` on that input and produces the documented
answer only when the space is present. -/
theorem c1_convertTimeGroup_divergence :
    convertTimeGroup "10:20am - 2:50pm" = "TBA" ∧
    convertTimeGroup "10:20am - 2:50pm" ≠ "1020 - 1450" ∧
    convertTimeGroup "10:20 am - 2:50 pm" = "1020 - 1450" :=
  ⟨rfl, by decide, rfl⟩

/-- C2 counterexample: on the canonical two-row version-1 block the back-fill
copies row 1's populated `finalTime` onto row 0, whose `finalDate` stays
empty, so row 0 has exactly one of the two fields populated. -/
def c2Block : List (Cell × Cell) :=
  [(some "Days", some "Class Start Time"),
   (some "F2:00 PM3:55 PM", some "Monday, Apr 28\r2:40 PM - 5:30 PM")]

/-- C2 is false as stated: `parseBlockV1` on `c2Block` yields a first row
with empty `finalDate` and populated `finalTime`. -/
theorem c2_counterexample :
    (parseBlockV1 2025 c2Block).toOption =
      some [⟨some "Days", some "Class Start Time", some "", "1440 - 1730"⟩,
            ⟨some "F2:00 PM3:55 PM", some "Monday, Apr 28\r2:40 PM - 5:30 PM",
             some "Apr 28, 2025", "1440 - 1730"⟩] ∧
    rowBalanced ⟨some "Days", some "Class Start Time", some "", "1440 - 1730"⟩ = false := by
  constructor
  · decide
  · decide

/-- C2 amended: balanced population holds away from the version-1 first row
and under announcement-balanced cells: in version 1 every row except the
back-filled first has finalDate and finalTime both populated or both empty,
and in version 2 every row does, whenever each exam-info cell carries either
no announcement or both a parseable date and a time range. -/
theorem c2_balanced_restricted :
    (∀ (year : Nat) (rows : List (Cell × Cell)) (out : List ScheduleRow),
      (∀ p ∈ rows, cellBalanced year p.2 = true) →
      parseBlockV1 year rows = .ok out →
      ∀ r ∈ out.tail, rowBalanced r = true) ∧
    (∀ (year : Nat) (b : BlockV2) (out : List ScheduleRow),
      (∀ p ∈ b.rows, cellBalanced year p.2 = true) →
      parseBlockV2 year b = .ok out →
      ∀ r ∈ out, rowBalanced r = true) := by
  constructor
  · intro year rows out hcells hok r hr
    unfold parseBlockV1 at hok
    cases hrows : v1Rows year initState rows with
    | nil => rw [hrows] at hok; exact absurd hok (by simp)
    | cons a rest =>
      cases rest with
      | nil => rw [hrows] at hok; exact absurd hok (by simp)
      | cons b t =>
        rw [hrows] at hok
        simp only [Except.ok.injEq] at hok
        subst hok
        simp only [List.tail_cons] at hr
        have hmem : r ∈ v1Rows year initState rows := by
          rw [hrows]
          exact List.mem_cons_of_mem a hr
        exact v1Rows_balanced year rows initState hcells (by decide) r hmem
  · intro year b out hcells hok r hr
    unfold parseBlockV2 at hok
    cases hdrop : dropHeaderV2 b with
    | error e => rw [hdrop] at hok; exact absurd hok (by simp)
    | ok rs =>
      rw [hdrop] at hok
      have hsub := dropHeaderV2_sub b rs hdrop
      exact v2Loop_balanced year rs initState out
        (fun p hp => hcells p (hsub p hp)) (by decide) hok r hr

/-- Concrete version-2 block used to exercise the amended C2 theorem. -/
def c2wBlock : BlockV2 :=
  ⟨"8:00 AM - 9:15 AM Exams", "Unnamed: 0",
   [(some "Days", some "Class Start Time"),
    (some "MW8:00 AM9:15 AM", some "Monday, Apr 28\r2:40 PM - 5:30 PM")]⟩

/-- Witness for the amended C2 theorem at a concrete version-2 block. -/
theorem c2_balanced_restricted_witness :
    rowBalanced ⟨some "MW", some "0800 - 0915", some "Apr 28, 2025", "1440 - 1730"⟩ = true :=
  c2_balanced_restricted.2 2025 c2wBlock
    [⟨some "MW", some "0800 - 0915", some "Apr 28, 2025", "1440 - 1730"⟩]
    (by decide) (by decide) _ (by simp)

/-- C3 counterexample chunk: one exam section whose single data row parses to
the key (MW, 0800 - 0915). -/
def c3Chunk : BlockV2 :=
  ⟨"8:00 AM - 9:15 AM Exams", "Unnamed: 0",
   [(some "Days", some "Class Start Time"), (some "MW8:00 AM9:15 AM", none)]⟩

/-- C3 is false as stated: a run over two chunks carrying the same meeting
pattern assembles two rows with the identical (Days, Time) key —
`set_index(['Days', 'Time'])` does not collapse duplicates. -/
theorem c3_counterexample :
    ((parseFileV2Schedule 2025 [c3Chunk, c3Chunk]).toOption.getD []).countP
      (fun r => r.days == some "MW" && r.time == some "0800 - 0915") = 2 := by decide

/-- C3 amended: the assembled schedule is the cleaned concatenation of the
per-chunk rows: every row of every successfully parsed, non-excluded chunk is
retained, so a (Days, Time) key may occur on several rows and no last-wins
collapse happens. -/
theorem c3_rows_retained :
    ∀ (year : Nat) (chunks : List BlockV2) (out : List ScheduleRow) (b : BlockV2)
      (rs : List ScheduleRow),
      parseFileV2Schedule year chunks = .ok out →
      b ∈ chunks → excludedV2 b = false →
      parseBlockV2 year b = .ok rs →
      ∀ r ∈ rs, cleanRow r ∈ out := by
  intro year chunks out b rs hok hb hex hparse r hr
  unfold parseFileV2Schedule at hok
  cases ha : assembleBlocksV2 year chunks with
  | error e => rw [ha] at hok; exact absurd hok (by simp)
  | ok rows =>
    rw [ha] at hok
    simp only [Except.ok.injEq] at hok
    subst hok
    exact List.mem_map_of_mem cleanRow
      (assembleBlocksV2_mem year chunks rows b rs ha hb hex hparse r hr)

/-- Witness for the amended C3 theorem at a concrete one-chunk run. -/
theorem c3_rows_retained_witness :
    cleanRow ⟨some "MW", some "0800 - 0915", some "", ""⟩ ∈
      ([⟨some "MW", some "0800 - 0915", some "", ""⟩] : List ScheduleRow) :=
  c3_rows_retained 2025 [c3Chunk] [⟨some "MW", some "0800 - 0915", some "", ""⟩] c3Chunk
    [⟨some "MW", some "0800 - 0915", some "", ""⟩] (by decide) (by simp) (by decide)
    (by decide) _ (by simp)

/-- C4: the accumulator laws of `parseBlock`: both accumulators start empty;
a row containing date announcements re-parses `sectionDate` from its last
date match (so each row reflects the most recent announcement at or before
it) and leaves it unchanged otherwise; `sectionTime` is captured from the
first time-range match of the date-stripped cell only while still empty; and
once non-empty `sectionTime` is never overwritten for the rest of the block. -/
theorem c4_accumulator :
    initState = ⟨some "", ""⟩ ∧
    (∀ (year : Nat) (st : SectionState) (s : String) (l : List String) (raw : String),
      dateMatchList s = l ++ [raw] →
      (stepV1 year st (some s)).sectionDate = dateHelper year raw) ∧
    (∀ (year : Nat) (st : SectionState) (s : String),
      dateMatchList s = [] →
      (stepV1 year st (some s)).sectionDate = st.sectionDate) ∧
    (∀ (year : Nat) (st : SectionState) (s raw : String) (l : List String),
      st.sectionTime = "" →
      timeMatchList (dateStripped s) = raw :: l →
      (stepV1 year st (some s)).sectionTime = convertTimeGroup (pyLower raw)) ∧
    (∀ (year : Nat) (st : SectionState) (cells : List Cell),
      st.sectionTime ≠ "" →
      (cells.foldl (stepV1 year) st).sectionTime = st.sectionTime) := by
  refine ⟨rfl, ?_, ?_, ?_, ?_⟩
  · intro year st s l raw h
    show (applySubs year st s).sectionDate = _
    rw [applySubs_date, h, List.foldl_append, List.foldl_cons, List.foldl_nil]
  · intro year st s h
    show (applySubs year st s).sectionDate = _
    rw [applySubs_date, h, List.foldl_nil]
  · intro year st s raw l ht h
    show (applySubs year st s).sectionTime = _
    rw [applySubs_time, h, List.foldl_cons, ht, if_pos (by decide)]
    exact timeFold_persist l _ (convertTimeGroup_ne_empty _)
  · intro year st cells ht
    induction cells generalizing st with
    | nil => rfl
    | cons c cs ih =>
      rw [List.foldl_cons]
      have hstep : (stepV1 year st c).sectionTime = st.sectionTime := by
        cases c with
        | none => rfl
        | some s =>
          show (applySubs year st s).sectionTime = _
          rw [applySubs_time]
          exact timeFold_persist _ _ ht
      rw [ih (stepV1 year st c) (by rw [hstep]; exact ht), hstep]

/-- Witness for the C4 accumulator laws: a combined date-and-time
announcement re-parses `sectionDate` from its (single, hence last) date
match. -/
theorem c4_accumulator_witness :
    (stepV1 2025 initState (some "Monday, Apr 28\r2:40 PM - 5:30 PM")).sectionDate =
      dateHelper 2025 "Monday, Apr 28" :=
  c4_accumulator.2.1 2025 initState "Monday, Apr 28\r2:40 PM - 5:30 PM" []
    "Monday, Apr 28" (by decide)

/-- C5 counterexample block: after the header adjustment its only row has a
first cell that fails the day/time grammar. -/
def c5Block : BlockV2 :=
  ⟨"8:00 AM - 9:15 AM Exams", "Unnamed: 0",
   [(some "Days", some "Class Start Time"), (some "garbage", none)]⟩

/-- C5 is false as stated: a version-2 row whose first cell fails the
day/time grammar raises `AttributeError` out of `parseBlock` (from
`None.lower()`) instead of being silently skipped. -/
theorem c5_counterexample :
    parseBlockV2 2025 c5Block = .error .attributeError := by decide

/-- C5 amended: a version-2 block one of whose surviving rows has a NaN or
grammar-failing first cell never parses successfully — the error aborts the
whole block rather than skipping the row. -/
theorem c5_grammar_mismatch_raises :
    ∀ (year : Nat) (b : BlockV2) (rows : List (Cell × Cell)),
      dropHeaderV2 b = .ok rows →
      rows.any v2RowRaises = true →
      exceptIsOk (parseBlockV2 year b) = false := by
  intro year b rows hdrop hbad
  unfold parseBlockV2
  rw [hdrop]
  exact v2Loop_error_of_bad year rows initState hbad

/-- Witness for the amended C5 theorem at the concrete mismatching block. -/
theorem c5_grammar_mismatch_raises_witness :
    exceptIsOk (parseBlockV2 2025 c5Block) = false :=
  c5_grammar_mismatch_raises 2025 c5Block [(some "garbage", none)] (by decide) (by decide)

/-- C6: common-exam expansion: every entry produced from one raw row shares
that row's normalized date and time, and the spec's concrete row
`"CS 1331/1332, CS 1371  Thurs, Apr 25"` with time `"2:40 pm 5:30 pm"`
expands to exactly CS 1331, CS 1332 and CS 1371 with date `"Apr 25, 2024"`
and time `"1440 - 1730"`. -/
theorem c6_common_expansion :
    (∀ (year : Nat) (c0 c1 : String) (out : List CommonEntry),
      parseCommonRow year c0 c1 = .ok out →
      ∀ e1 ∈ out, ∀ e2 ∈ out, e1.date = e2.date ∧ e1.time = e2.time) ∧
    parseCommonRow 2024 "CS 1331/1332, CS 1371  Thurs, Apr 25" "2:40 pm 5:30 pm" =
      .ok [⟨"CS 1331", "Apr 25, 2024", "1440 - 1730"⟩,
           ⟨"CS 1332", "Apr 25, 2024", "1440 - 1730"⟩,
           ⟨"CS 1371", "Apr 25, 2024", "1440 - 1730"⟩] := by
  constructor
  · intro year c0 c1 out h
    have hshape : out = [] ∨ ∃ (courses : List String) (D T : String),
        out = courses.map (fun c => ⟨c, D, T⟩) := by
      simp only [parseCommonRow] at h
      split at h
      · exact absurd h (by simp)
      · split at h
        · left
          simpa using h.symm
        · split at h
          · exact absurd h (by simp)
          · split at h
            · exact absurd h (by simp)
            · right
              exact ⟨_, _, _, by simpa using h.symm⟩
    rcases hshape with rfl | ⟨courses, D, T, rfl⟩
    · intro e1 h1
      simp at h1
    · intro e1 h1 e2 h2
      obtain ⟨a, _, rfl⟩ := List.mem_map.mp h1
      obtain ⟨b, _, rfl⟩ := List.mem_map.mp h2
      exact ⟨rfl, rfl⟩
  · decide

/-- Witness for the C6 sharing law at the spec's concrete row. -/
theorem c6_common_expansion_witness :
    (⟨"CS 1331", "Apr 25, 2024", "1440 - 1730"⟩ : CommonEntry).date =
      (⟨"CS 1371", "Apr 25, 2024", "1440 - 1730"⟩ : CommonEntry).date ∧
    (⟨"CS 1331", "Apr 25, 2024", "1440 - 1730"⟩ : CommonEntry).time =
      (⟨"CS 1371", "Apr 25, 2024", "1440 - 1730"⟩ : CommonEntry).time :=
  c6_common_expansion.1 2024 "CS 1331/1332, CS 1371  Thurs, Apr 25" "2:40 pm 5:30 pm"
    [⟨"CS 1331", "Apr 25, 2024", "1440 - 1730"⟩,
     ⟨"CS 1332", "Apr 25, 2024", "1440 - 1730"⟩,
     ⟨"CS 1371", "Apr 25, 2024", "1440 - 1730"⟩]
    c6_common_expansion.2 _ (by simp) _ (by simp)

/-- C7 block: row 0 is the header row with no resolvable time, row 1 carries
the exam announcement `8:00 AM - 9:15 AM`. -/
def c7Block : List (Cell × Cell) :=
  [(some "Days", some "Class Start Time"),
   (some "MW8:00 AM9:15 AM", some "8:00 AM - 9:15 AM")]

/-- C7: after the version-1 loop, the first row's `finalTime` is overwritten
with the second row's; on the concrete two-row block where row 1 resolves to
`"0800 - 0915"`, row 0 carries `"0800 - 0915"` as well. -/
theorem c7_first_row_backfill :
    (∀ (year : Nat) (rows : List (Cell × Cell)) (r0 r1 : ScheduleRow)
        (rest : List ScheduleRow),
      parseBlockV1 year rows = .ok (r0 :: r1 :: rest) → r0.finalTime = r1.finalTime) ∧
    ((parseBlockV1 2024 c7Block).toOption.getD []).map (fun r => r.finalTime) =
      ["0800 - 0915", "0800 - 0915"] := by
  constructor
  · intro year rows r0 r1 rest h
    unfold parseBlockV1 at h
    cases hrows : v1Rows year initState rows with
    | nil => rw [hrows] at h; exact absurd h (by simp)
    | cons a rest' =>
      cases rest' with
      | nil => rw [hrows] at h; exact absurd h (by simp)
      | cons b t =>
        rw [hrows] at h
        simp only [Except.ok.injEq, List.cons.injEq] at h
        obtain ⟨h0, h1, _⟩ := h
        rw [← h0, ← h1]
  · decide

/-- Witness for the C7 back-fill law at the concrete block. -/
theorem c7_first_row_backfill_witness :
    (⟨some "Days", some "Class Start Time", some "", "0800 - 0915"⟩ : ScheduleRow).finalTime =
      (⟨some "MW8:00 AM9:15 AM", some "8:00 AM - 9:15 AM", some "",
        "0800 - 0915"⟩ : ScheduleRow).finalTime :=
  c7_first_row_backfill.1 2024 c7Block _ _ [] (by decide)

/-- C8: the local `date` helper tries the grammars `%m/%d`, `%m-%d`,
`%A, %b %d`, `%A, %B %d` in order, first match wins (shown for the head of
the list), renders `"%b %d, %Y"` with the document year, and yields `none`
(no exception) when no grammar matches; the spec's two concrete examples
hold. -/
theorem c8_date_grammars :
    (∀ (year : Nat) (raw : String),
      strptimeMD '/' raw = none → strptimeMD '-' raw = none →
      strptimeWdMD weekdayFullNames monthAbbrevNames raw = none →
      strptimeWdMD weekdayFullNames monthFullNames raw = none →
      dateHelper year raw = none) ∧
    (∀ (year : Nat) (raw : String) (md : Nat × Nat),
      strptimeMD '/' raw = some md →
      dateHelper year raw = some (renderDate year md.1 md.2)) ∧
    dateHelper 2024 "Tuesday, Dec 9" = some "Dec 09, 2024" ∧
    dateHelper 2024 "12/09" = some "Dec 09, 2024" := by
  refine ⟨?_, ?_, by decide, by decide⟩
  · intro year raw h1 h2 h3 h4
    unfold dateHelper
    rw [h1, h2, h3, h4]
  · intro year raw md h
    unfold dateHelper
    rw [h]

/-- Witness for the C8 no-grammar case at the spec's `"garbage"` input. -/
theorem c8_date_grammars_witness : dateHelper 2024 "garbage" = none :=
  c8_date_grammars.1 2024 "garbage" (by decide) (by decide) (by decide) (by decide)

/-- C9: `Revise.iterFiles` tries ParserV1, ParserV2, ParserV3 on a document
in that fixed order, retrying the whole document; a document failing all
three is recorded in the failed set and contributes nothing to the processed
results; in every case the remaining documents are processed exactly as if
the document were absent, so one failure never halts the batch. -/
theorem c9_parser_fallback :
    ∀ (ε α : Type) (p1 p2 p3 : String → Except ε α) (f : String) (fs : List String),
      nameMatchesTerm f = true →
      ((∀ e1 e2 e3, p1 f = .error e1 → p2 f = .error e2 → p3 f = .error e3 →
          iterFilesModel p1 p2 p3 (f :: fs) =
            ((iterFilesModel p1 p2 p3 fs).1, f :: (iterFilesModel p1 p2 p3 fs).2)) ∧
        (∀ r, p1 f = .ok r →
          iterFilesModel p1 p2 p3 (f :: fs) =
            ((f, r) :: (iterFilesModel p1 p2 p3 fs).1, (iterFilesModel p1 p2 p3 fs).2)) ∧
        (∀ e1 r, p1 f = .error e1 → p2 f = .ok r →
          iterFilesModel p1 p2 p3 (f :: fs) =
            ((f, r) :: (iterFilesModel p1 p2 p3 fs).1, (iterFilesModel p1 p2 p3 fs).2)) ∧
        (∀ e1 e2 r, p1 f = .error e1 → p2 f = .error e2 → p3 f = .ok r →
          iterFilesModel p1 p2 p3 (f :: fs) =
            ((f, r) :: (iterFilesModel p1 p2 p3 fs).1, (iterFilesModel p1 p2 p3 fs).2))) := by
  intro ε α p1 p2 p3 f fs hname
  refine ⟨?_, ?_, ?_, ?_⟩
  · intro e1 e2 e3 h1 h2 h3
    simp [iterFilesModel, tryThree, hname, h1, h2, h3]
  · intro r h1
    simp [iterFilesModel, tryThree, hname, h1]
  · intro e1 r h1 h2
    simp [iterFilesModel, tryThree, hname, h1, h2]
  · intro e1 e2 r h1 h2 h3
    simp [iterFilesModel, tryThree, hname, h1, h2, h3]

/-- A parser stub that always raises (used only to exercise C9). -/
def c9FailA : String → Except Nat Nat := fun _ => .error 0

/-- A second always-raising parser stub. -/
def c9FailB : String → Except Nat Nat := fun _ => .error 1

/-- A third always-raising parser stub. -/
def c9FailC : String → Except Nat Nat := fun _ => .error 2

/-- Witness for C9: a document failing all three parsers lands in the failed
set while the remaining documents are processed unchanged. -/
theorem c9_parser_fallback_witness :
    iterFilesModel c9FailA c9FailB c9FailC ["202408.json", "202505.json"] =
      ((iterFilesModel c9FailA c9FailB c9FailC ["202505.json"]).1,
       "202408.json" :: (iterFilesModel c9FailA c9FailB c9FailC ["202505.json"]).2) :=
  (c9_parser_fallback Nat Nat c9FailA c9FailB c9FailC "202408.json" ["202505.json"]
    (by decide)).1 0 1 2 rfl rfl rfl

/-- C10: a section whose raw meetings list is empty makes the `Section`
constructor raise `LookupError`, and `Revise.process` swallows the
constructor exception and leaves the section's record — in particular its
date-index and time-index slots — unchanged. -/
theorem c10_empty_meetings_skipped :
    ∀ (cache : Caches) (common : List CommonEntry) (sched : List ScheduleRow)
      (dates times : List String) (course : String) (d : SectionData),
      d.meetings = [] →
      sectionInit cache d = .error .lookupError ∧
      processSection cache common sched dates times course d = .ok d := by
  intro cache common sched dates times course d h
  have hinit : sectionInit cache d = .error .lookupError := by
    unfold sectionInit
    rw [h]
  refine ⟨hinit, ?_⟩
  unfold processSection
  rw [hinit]

/-- Concrete section record with an empty meetings list. -/
def c10Data : SectionData := ⟨[], 3, 0⟩

/-- Witness for C10 at a concrete empty-meetings section. -/
theorem c10_empty_meetings_skipped_witness :
    sectionInit ⟨["0800 - 0915"], ["Lecture*"]⟩ c10Data = .error .lookupError ∧
    processSection ⟨["0800 - 0915"], ["Lecture*"]⟩ [] [] [] [] "CS 1371" c10Data =
      .ok c10Data :=
  c10_empty_meetings_skipped ⟨["0800 - 0915"], ["Lecture*"]⟩ [] [] [] [] "CS 1371"
    c10Data rfl
